import Mathlib

/-!
Shallow embedding of the core of `engage_api_python3`:

* `pkg/net.py` — `Endpoint.__init__` and `Invoker.invoke` (rate-limited client);
* `supporter/fix_malformed_addresses/manage_supporters.py` — batch
  partitioning in `main`, the worker loop `process`, `get_delete_payload`,
  the `queue.Queue` join discipline;
* `segments/see_members.py` — the offset pagination loop in `run`.

HTTP exchanges are modelled by a finite script of responses the backend
would give; a run that consumes the whole script without completing models
the unbounded retry loop still running.
-/

/- ### Substring test, modelling the Python `in` operator on strings -/

/-- `startsWithL pat s` is true when `pat` is an initial segment of `s`. -/
def startsWithL : List Char → List Char → Bool
  | [], _ => true
  | _ :: _, [] => false
  | a :: ps, b :: ss => a == b && startsWithL ps ss

/-- `containsSub pat s` is true when `pat` occurs contiguously inside `s`;
this is the Python expression `pat in s` on strings. -/
def containsSub (pat : List Char) : List Char → Bool
  | [] => startsWithL pat []
  | b :: ss => startsWithL pat (b :: ss) || containsSub pat ss

/-- The Python test `pat in s` for strings. -/
def strContains (s pat : String) : Bool := containsSub pat.toList s.toList

/- ### `pkg/net.py`: `Endpoint.__init__` -/

/-- The constructed endpoint object: the four configuration fields plus the
derived `url` (net.py lines 43-63). -/
structure EndpointRec where
  endpoint : String
  host : String
  method : String
  token : String
  url : String
deriving DecidableEq, Repr

/-- `Endpoint.__init__` (net.py lines 43-63).  Each keyword argument is an
`Option`; `none` models the keyword being absent.  The code checks
`endpoint` first (raise `NameError` when `None`), then defaults a missing
`host` to `api.salsalabs.org`, then raises on a missing `method`, then on a
missing `token`; `urlunsplit(('https', host, endpoint, None, None))`
becomes string concatenation. -/
def endpointInit (endpoint host method token : Option String) :
    Except String EndpointRec :=
  match endpoint with
  | none => .error "NameError: endpoint"
  | some e =>
    let h := host.getD "api.salsalabs.org"
    match method with
    | none => .error "NameError: method"
    | some m =>
      match token with
      | none => .error "NameError: token"
      | some t => .ok ⟨e, h, m, t, "https://" ++ h ++ e⟩

/- ### `pkg/net.py`: `Invoker.invoke` -/

/-- One backend HTTP response: status code, body text, and the JSON
`payload` field (abstracted to a type parameter). -/
structure Resp (P : Type) where
  status : Nat
  text : String
  payload : P
deriving DecidableEq, Repr

/-- The marker checked in the 429 branch (net.py line 130). -/
def batchSizeMarker : String := "Requested batch size exceeds the allowed size"

/-- The marker checked in the 200 branch (net.py line 138). -/
def rateLimitMarker : String := "Your per minute call rate"

/-- Outcome of `Invoker.invoke` on a finite response script: a normal
return, a raised exception, or the script running out while the retry loop
is still going (the unbounded-retry case).  `calls` counts HTTP requests
issued, `slept` counts total seconds spent in `time.sleep`. -/
inductive InvokeOutcome (P : Type)
  | ok (calls slept : Nat) (payload : P)
  | err (calls slept : Nat) (msg : String)
  | exhausted (calls slept : Nat)
deriving DecidableEq, Repr

/-- The `while not complete` loop of `Invoker.invoke` (net.py lines
115-147), consuming one scripted response per iteration.  Non-200: a 429
whose text holds `batchSizeMarker` raises; any other 429 naps 30 seconds
and retries; any other status raises `HTTP Status {code}, {url}` (the
f-string on line 136 interpolates the status code and the endpoint URL).
Status 200 with `rateLimitMarker` in the text naps and retries; otherwise
the loop completes and the payload of that response is returned. -/
def invokeGo (url : String) : List (Resp P) → Nat → Nat → InvokeOutcome P
  | [], calls, slept => .exhausted calls slept
  | r :: rest, calls, slept =>
    if r.status ≠ 200 then
      if r.status = 429 then
        if strContains r.text batchSizeMarker then
          .err (calls + 1) slept ("Invoker: HTTP status 429, " ++ r.text)
        else
          invokeGo url rest (calls + 1) (slept + 30)
      else
        .err (calls + 1) slept
          ("HTTP Status " ++ toString r.status ++ ", " ++ url)
    else
      if strContains r.text rateLimitMarker then
        invokeGo url rest (calls + 1) (slept + 30)
      else
        .ok (calls + 1) slept r.payload

/-- `Invoker.invoke` (net.py lines 96-147).  The method dispatch at lines
116-125 raises on any method outside POST/GET/PUT/DEL before sending; the
method never changes across iterations, so the check is hoisted out of the
loop. -/
def invoke (method url : String) (resps : List (Resp P)) : InvokeOutcome P :=
  if method = "POST" ∨ method = "GET" ∨ method = "PUT" ∨ method = "DEL" then
    invokeGo url resps 0 0
  else
    .err 0 0 ("Method " ++ method)

/-- A response that the retry loop absorbs with a nap: a 429 without the
batch-size marker, or a 200 carrying the per-minute rate marker. -/
def softRateLimit (r : Resp P) : Bool :=
  (r.status == 429 && !strContains r.text batchSizeMarker) ||
  (r.status == 200 && strContains r.text rateLimitMarker)

/- ### `manage_supporters.py`: reading IDs and partitioning into batches -/

/-- One row produced by `csv.reader` over the id file.  `main` indexes
`row[0]`, so the first field is kept explicit alongside the remaining
fields. -/
structure CsvRow where
  field0 : String
  rest : List String
deriving DecidableEq, Repr

/-- The comprehension `[ row[0] for row in r if len(row[0]) == 36]`
(manage_supporters.py line 274): keep the first field of exactly those rows
whose first field is 36 characters long. -/
def readIds (rows : List CsvRow) : List String :=
  (rows.filter (fun row => row.field0.length == 36)).map (·.field0)

/-- Python `range(0, stop, step)` for `step > 0`: the multiples of `step`
below `stop`. -/
def pyRange (stop step : Nat) : List Nat :=
  (List.range ((stop + step - 1) / step)).map (· * step)

/-- Python slicing `l[a:b]` (for `a ≤ b`): drop `a`, then take `b - a`. -/
def pySlice (l : List α) (a b : Nat) : List α := (l.drop a).take (b - a)

/-- The batch partition
`[ ids[offset:offset+maxBatchSize] for offset in range(0, len(ids), maxBatchSize)]`
(manage_supporters.py line 277). -/
def batches (ids : List α) (maxBatchSize : Nat) : List (List α) :=
  (pyRange ids.length maxBatchSize).map
    (fun offset => pySlice ids offset (offset + maxBatchSize))

/- ### `manage_supporters.py`: the worker loop `process` -/

/-- One per-supporter record inside a response payload: the fields
`supporterId` and `result` that `process` extracts. -/
structure SupRecord where
  supporterId : String
  result : String
deriving DecidableEq, Repr

/-- A search response payload, carrying its `supporters` list. -/
structure SupPayload where
  supporters : List SupRecord
deriving DecidableEq, Repr

/-- The row extraction of `process` (manage_supporters.py line 185):
`rows = [ [ r["supporterId"], r["result"]] for r in payload["supporters"]]`. -/
def batchRows (payload : SupPayload) : List (String × String) :=
  payload.supporters.map (fun r => (r.supporterId, r.result))

/-- The sink contents after a full run in which the dequeued batches were
processed in the order `order` (each worker pops a batch, calls the payload
getter `backend`, and appends that batch's rows with `w.writerows`): the
concatenation of the per-batch row lists in processing order.  Concurrency
shows up as `order` being an arbitrary permutation of the enqueued batches. -/
def runSink (backend : List String → SupPayload)
    (order : List (List String)) : List (String × String) :=
  (order.map (fun b => batchRows (backend b))).flatten

/- ### `manage_supporters.py`: `queue.Queue` bookkeeping around `q.join()` -/

/-- The queue operations that touch the unfinished-task counter of a
`queue.Queue`: `put` increments it, `task_done` decrements it, `get` leaves
it unchanged. -/
inductive QOp
  | put
  | get
  | taskDone
deriving DecidableEq, Repr

/-- Effect of one queue operation on the unfinished-task counter. -/
def qopStep (n : Nat) (op : QOp) : Nat :=
  match op with
  | .put => n + 1
  | .get => n
  | .taskDone => n - 1

/-- The unfinished-task counter of `queue.Queue` after a sequence of
operations, starting from 0. -/
def unfinishedTasks (ops : List QOp) : Nat :=
  ops.foldl qopStep 0

/-- `q.join()` returns if and only if the unfinished-task counter is 0. -/
def joinReturns (ops : List QOp) : Bool := unfinishedTasks ops == 0

/-- The queue operations `main` performs: `[ q.put(b) for b in batches ]`
(manage_supporters.py line 279), one `put` per batch. -/
def mainQueueOps (ids : List String) (maxBatchSize : Nat) : List QOp :=
  (batches ids maxBatchSize).map (fun _ => .put)

/-- The queue operations the workers perform: `process` calls `q.get()`
once per dequeued batch (manage_supporters.py line 180) and never calls
`q.task_done()`. -/
def processQueueOps (dequeued : List (List String)) : List QOp :=
  dequeued.map (fun _ => .get)

/-- All queue operations of one run: the enqueue phase of `main` followed
by the workers draining `dequeued` batches. -/
def runQueueOps (ids : List String) (maxBatchSize : Nat)
    (dequeued : List (List String)) : List QOp :=
  mainQueueOps ids maxBatchSize ++ processQueueOps dequeued

/- ### `manage_supporters.py`: `get_delete_payload` -/

/-- Outcome of one call of a Python function under a response script:
normal return, a `NameError` on an undefined name, a call of `exit` with a
code, or the script running out while the loop is still going. -/
inductive PyOutcome (P : Type)
  | ret (payload : P)
  | nameError (name : String)
  | exited (code : Nat)
  | looping
deriving DecidableEq, Repr

/-- `get_delete_payload` (manage_supporters.py lines 83-107), as Python 3
executes it.  After building `headers`, `supporters` and `payload` (all
from defined names), the first statement of the retry loop is
`success = false`; the name `false` is undefined in Python 3, so the call
raises `NameError` before any HTTP request is issued, whatever the backend
would answer. -/
def getDeletePayload (_resps : List (Resp P)) : PyOutcome Q :=
  .nameError "false"

/-- `get_delete_payload` under a lenient semantics that grants the
undefined names their evident intent (`false`/`true` as booleans, `unicode`
as the identity on strings, `time` as the time module), so that the loop at
lines 95-106 actually runs.  Each iteration issues the DELETE and consumes
one scripted response `r`.  The whole loop body is guarded by
`r.status_code == 200`: on 200 the inner `if r.status_code == 429` is
necessarily false and its `else` branch calls `exit(1)`; on any other
status nothing happens and the loop retries forever.  The `return`
after the loop is unreachable. -/
def getDeletePayloadLenient (resps : List (Resp P)) : PyOutcome Q :=
  match resps with
  | [] => .looping
  | r :: rest =>
    if r.status = 200 then
      if r.status = 429 then getDeletePayloadLenient rest
      else .exited 1
    else getDeletePayloadLenient rest

/- ### `segments/see_members.py`: the offset pagination loop in `run` -/

/-- One response payload of the members search, keeping the fields the loop
reads.  Engage omits empty fields, hence the `Option`s: a missing `count`
makes `field` return the string default and the later `offset += count`
a type error; missing `supporters` makes `run` call `exit(1)`. -/
structure PageResp where
  count : Option Nat
  supporters : Option (List String)
deriving DecidableEq, Repr

/-- Result of the pagination loop: the list of `(offset, count)` request
pairs issued, tagged with how the loop ended — falling out of the `while`
normally, `exit(1)` on a payload without supporters, the type error of
adding the string default to the offset, or the response script running out
with the loop still going. -/
inductive PageResult
  | normal (reqs : List (Nat × Nat))
  | exitedEmpty (reqs : List (Nat × Nat))
  | typeErr (reqs : List (Nat × Nat))
  | exhausted (reqs : List (Nat × Nat))
deriving DecidableEq, Repr

/-- The `while requestPayload['payload']['count'] == args.count` loop of
`run` (see_members.py lines 132-147).  While the requested count equals
`args.count`, one POST is issued (consuming a scripted response); the
payload's `supporters` being absent exits the process; otherwise the next
request offset is the current offset plus the returned `count`, and the
next requested count is the returned `count`. -/
def paginateGo (argsCount : Nat) :
    List PageResp → Nat → Nat → List (Nat × Nat) → PageResult
  | resps, reqOffset, reqCount, acc =>
    if reqCount ≠ argsCount then .normal acc.reverse
    else
      match resps with
      | [] => .exhausted acc.reverse
      | r :: rest =>
        let acc2 := (reqOffset, reqCount) :: acc
        match r.supporters with
        | none => .exitedEmpty acc2.reverse
        | some _ =>
          match r.count with
          | none => .typeErr acc2.reverse
          | some c => paginateGo argsCount rest (reqOffset + c) c acc2

/-- `run` starts the loop with `offset = 0` and `count = args.count`
(see_members.py lines 125-131). -/
def paginate (argsCount : Nat) (resps : List PageResp) : PageResult :=
  paginateGo argsCount resps 0 argsCount []

/- ### Helper lemmas about the batch partition -/

theorem pyRange_zero (B : Nat) (hB : 0 < B) : pyRange 0 B = [] := by
  unfold pyRange
  have h : (0 + B - 1) / B = 0 := by
    apply Nat.div_eq_of_lt
    omega
  rw [h]
  simp

theorem ceil_div_succ (stop B : Nat) (h0 : 0 < stop) (hB : 0 < B) :
    (stop + B - 1) / B = (stop - B + B - 1) / B + 1 := by
  have key : stop + B - 1 = (stop - 1) + B := by omega
  rw [key, Nat.add_div_right _ hB]
  rcases le_or_lt B stop with h | h
  · have h1 : stop - B + B - 1 = stop - 1 := by omega
    rw [h1]
  · have h1 : stop - B + B - 1 = B - 1 := by omega
    rw [h1, Nat.div_eq_of_lt (by omega), Nat.div_eq_of_lt (by omega)]

theorem pyRange_succ (stop B : Nat) (h0 : 0 < stop) (hB : 0 < B) :
    pyRange stop B = 0 :: (pyRange (stop - B) B).map (· + B) := by
  unfold pyRange
  rw [ceil_div_succ stop B h0 hB, List.range_succ_eq_map]
  have hf : ((fun x => x * B) ∘ Nat.succ) = ((fun x => x + B) ∘ fun x => x * B) := by
    funext i
    simp [Nat.succ_mul]
  simp only [List.map_cons, List.map_map, Nat.zero_mul, hf]

theorem batches_nil {α : Type} (B : Nat) (hB : 0 < B) :
    batches ([] : List α) B = [] := by
  unfold batches
  rw [List.length_nil, pyRange_zero B hB]
  rfl

theorem batches_cons {α : Type} (B : Nat) (hB : 0 < B) (l : List α) (hl : l ≠ []) :
    batches l B = l.take B :: batches (l.drop B) B := by
  unfold batches pySlice
  have h0 : 0 < l.length := List.length_pos.mpr hl
  rw [pyRange_succ l.length B h0 hB, List.length_drop]
  simp only [Nat.add_sub_cancel_left, List.map_cons, List.map_map, List.drop_zero]
  congr 1
  refine List.map_congr_left (fun o _ => ?_)
  simp [Function.comp, List.drop_drop, Nat.add_comm]

theorem batches_length {α : Type} (l : List α) (B : Nat) :
    (batches l B).length = (l.length + B - 1) / B := by
  unfold batches pyRange
  simp

theorem batches_size_le {α : Type} (l : List α) (B : Nat) (b : List α)
    (hb : b ∈ batches l B) : b.length ≤ B := by
  unfold batches pySlice at hb
  simp only [List.mem_map] at hb
  obtain ⟨o, _, rfl⟩ := hb
  simp only [Nat.add_sub_cancel_left, List.length_take]
  omega

theorem batches_flatten_le {α : Type} (B : Nat) (hB : 0 < B) :
    ∀ (n : Nat) (l : List α), l.length ≤ n → (batches l B).flatten = l := by
  intro n
  induction n with
  | zero =>
    intro l hl
    have h : l = [] := List.eq_nil_of_length_eq_zero (Nat.le_zero.mp hl)
    subst h
    rw [batches_nil B hB]
    rfl
  | succ n ih =>
    intro l hl
    cases l with
    | nil =>
      rw [batches_nil B hB]
      rfl
    | cons a t =>
      rw [batches_cons B hB (a :: t) (by simp), List.flatten_cons,
        ih ((a :: t).drop B) (by simp only [List.length_drop] at *; simp at hl ⊢; omega)]
      exact List.take_append_drop B (a :: t)

theorem batches_flatten {α : Type} (B : Nat) (hB : 0 < B) (l : List α) :
    (batches l B).flatten = l :=
  batches_flatten_le B hB l.length l le_rfl

/- ### Helper lemmas about the queue counter -/

theorem foldl_qopStep_puts {β : Type} (n : Nat) :
    ∀ L : List β, (L.map fun _ => QOp.put).foldl qopStep n = n + L.length := by
  intro L
  induction L generalizing n with
  | nil => simp
  | cons a t ih =>
    simp only [List.map_cons, List.foldl_cons, List.length_cons]
    rw [ih]
    simp only [qopStep]
    omega

theorem foldl_qopStep_gets {β : Type} (n : Nat) :
    ∀ M : List β, (M.map fun _ => QOp.get).foldl qopStep n = n := by
  intro M
  induction M generalizing n with
  | nil => rfl
  | cons a t ih =>
    simp only [List.map_cons, List.foldl_cons]
    exact ih n

/- ### Helper lemmas about the substring test -/

theorem startsWithL_self_append : ∀ p r : List Char, startsWithL p (p ++ r) = true := by
  intro p
  induction p with
  | nil => intro r; rfl
  | cons a ps ih =>
    intro r
    show (a == a && startsWithL ps (ps ++ r)) = true
    rw [ih r]
    simp

theorem containsSub_of_startsWithL (p l : List Char) (h : startsWithL p l = true) :
    containsSub p l = true := by
  cases l with
  | nil => exact h
  | cons b ss =>
    unfold containsSub
    rw [h]
    rfl

theorem containsSub_append_left (p l : List Char) (h : containsSub p l = true) :
    ∀ a : List Char, containsSub p (a ++ l) = true := by
  intro a
  induction a with
  | nil => exact h
  | cons x xs ih =>
    show containsSub p (x :: (xs ++ l)) = true
    unfold containsSub
    rw [ih]
    simp

theorem strContains_middle (a s b : String) : strContains (a ++ s ++ b) s = true := by
  unfold strContains
  have h : (a ++ s ++ b).toList = a.toList ++ (s.toList ++ b.toList) := by
    simp [String.toList]
  rw [h]
  exact containsSub_append_left _ _
    (containsSub_of_startsWithL _ _ (startsWithL_self_append _ _)) _

theorem strContains_right (a s : String) : strContains (a ++ s) s = true := by
  unfold strContains
  have h : (a ++ s).toList = a.toList ++ s.toList := by
    simp [String.toList]
  rw [h]
  refine containsSub_append_left _ _ (containsSub_of_startsWithL _ _ ?_) _
  have h2 := startsWithL_self_append s.toList []
  rwa [List.append_nil] at h2

/- ### Helper lemma: the retry loop across soft rate-limit responses -/

theorem invokeGo_soft {P : Type} (url : String) (lastR : Resp P)
    (h200 : lastR.status = 200)
    (hclean : strContains lastR.text rateLimitMarker = false)
    (rest : List (Resp P)) :
    ∀ (pre : List (Resp P)), (∀ r ∈ pre, softRateLimit r = true) →
      ∀ calls slept : Nat,
        invokeGo url (pre ++ lastR :: rest) calls slept =
          .ok (calls + pre.length + 1) (slept + 30 * pre.length) lastR.payload := by
  intro pre
  induction pre with
  | nil =>
    intro _ calls slept
    show invokeGo url (lastR :: rest) calls slept = _
    unfold invokeGo
    rw [h200]
    simp [hclean]
  | cons r pre ih =>
    intro hpre calls slept
    have hr : softRateLimit r = true := hpre r (by simp)
    have hpre2 : ∀ x ∈ pre, softRateLimit x = true := fun x hx => hpre x (by simp [hx])
    simp only [softRateLimit, Bool.or_eq_true, Bool.and_eq_true, beq_iff_eq,
      Bool.not_eq_true'] at hr
    show invokeGo url (r :: (pre ++ lastR :: rest)) calls slept = _
    unfold invokeGo
    rcases hr with ⟨h429, hbatch⟩ | ⟨hok, hrate⟩
    · rw [h429, hbatch]
      simp only [List.length_cons]
      rw [ih hpre2 (calls + 1) (slept + 30)]
      have e1 : calls + 1 + pre.length + 1 = calls + (pre.length + 1) + 1 := by omega
      have e2 : slept + 30 + 30 * pre.length = slept + 30 * (pre.length + 1) := by omega
      simp [e1, e2]
    · rw [hok, hrate]
      simp only [List.length_cons, if_true]
      rw [ih hpre2 (calls + 1) (slept + 30)]
      have e1 : calls + 1 + pre.length + 1 = calls + (pre.length + 1) + 1 := by omega
      have e2 : slept + 30 + 30 * pre.length = slept + 30 * (pre.length + 1) := by omega
      simp [e1, e2]

/- ### Helper lemma: the pagination loop across full pages -/

theorem paginateGo_steady (C : Nat) (lastR : PageResp) (cl : Nat)
    (hfc : lastR.count = some cl) (hfs : lastR.supporters.isSome = true)
    (hne : cl ≠ C) (rest : List PageResp) :
    ∀ pre : List PageResp,
      (∀ r ∈ pre, r.count = some C ∧ r.supporters.isSome = true) →
      ∀ (o : Nat) (acc : List (Nat × Nat)),
        paginateGo C (pre ++ lastR :: rest) o C acc =
          .normal (acc.reverse ++
            (List.range (pre.length + 1)).map fun i => (o + i * C, C)) := by
  obtain ⟨lc, ls⟩ := lastR
  dsimp only at hfc hfs
  obtain ⟨sl, rfl⟩ := Option.isSome_iff_exists.mp hfs
  subst hfc
  intro pre
  induction pre with
  | nil =>
    intro _ o acc
    have step : paginateGo C (⟨some cl, some sl⟩ :: rest) o C acc =
        paginateGo C rest (o + cl) cl ((o, C) :: acc) := by
      conv_lhs => unfold paginateGo
      rw [if_neg (by simp)]
    show paginateGo C (⟨some cl, some sl⟩ :: rest) o C acc = _
    rw [step]
    conv_lhs => unfold paginateGo
    rw [if_pos hne]
    simp [List.range_succ]
  | cons r pre ih =>
    intro hpre o acc
    obtain ⟨hc, hs⟩ := hpre r (by simp)
    have hpre2 : ∀ x ∈ pre, x.count = some C ∧ x.supporters.isSome = true :=
      fun x hx => hpre x (by simp [hx])
    obtain ⟨rc, rs⟩ := r
    dsimp only at hc hs
    obtain ⟨s2, rfl⟩ := Option.isSome_iff_exists.mp hs
    subst hc
    have step : paginateGo C
        (⟨some C, some s2⟩ :: (pre ++ ⟨some cl, some sl⟩ :: rest)) o C acc =
        paginateGo C (pre ++ ⟨some cl, some sl⟩ :: rest) (o + C) C
          ((o, C) :: acc) := by
      conv_lhs => unfold paginateGo
      rw [if_neg (by simp)]
    show paginateGo C (⟨some C, some s2⟩ :: (pre ++ ⟨some cl, some sl⟩ :: rest))
      o C acc = _
    rw [step, ih hpre2 (o + C) ((o, C) :: acc)]
    congr 1
    rw [List.reverse_cons, List.append_assoc]
    congr 1
    rw [List.length_cons]
    conv_rhs => rw [List.range_succ_eq_map]
    simp only [List.map_cons, List.map_map, List.singleton_append,
      Nat.zero_mul, Nat.add_zero]
    congr 1
    refine List.map_congr_left fun i _ => ?_
    simp only [Function.comp_apply, Nat.succ_mul, Prod.mk.injEq]
    exact ⟨by ring, trivial⟩

/- ### Helper lemma: sink identifiers after a full run -/

theorem runSink_fst_perm (ids : List String) (B : Nat) (hB : 0 < B)
    (backend : List String → SupPayload)
    (hb : ∀ b : List String, ((backend b).supporters).map SupRecord.supporterId = b)
    (order : List (List String)) (horder : order.Perm (batches ids B)) :
    ((runSink backend order).map Prod.fst).Perm ids := by
  have hrow : ∀ b : List String, (batchRows (backend b)).map Prod.fst = b := by
    intro b
    unfold batchRows
    rw [List.map_map]
    exact hb b
  have key : (runSink backend order).map Prod.fst = order.flatten := by
    unfold runSink
    rw [List.map_flatten, List.map_map]
    have h3 : order.map (List.map Prod.fst ∘ fun b => batchRows (backend b)) =
        order.map id :=
      List.map_congr_left fun b _ => hrow b
    rw [h3, List.map_id]
  rw [key]
  have h4 := horder.flatten
  rwa [batches_flatten B hB ids] at h4

/- ### Claim theorems -/

/-- C1: for every identifier list and positive `maxBatchSize` B, the
slicing in `main` produces exactly `ceil(N/B)` batches (as
`(N + B - 1) / B`), each of size at most B, whose concatenation in enqueue
order is the original list; for `[a, b, c, d, e]` with B = 2 the batches
are `[a, b]`, `[c, d]`, `[e]`. -/
theorem c1_partition_completeness {α : Type} (ids : List α) (B : Nat) (hB : 0 < B) :
    (batches ids B).length = (ids.length + B - 1) / B ∧
    (∀ b ∈ batches ids B, b.length ≤ B) ∧
    (batches ids B).flatten = ids ∧
    batches ["a", "b", "c", "d", "e"] 2 = [["a", "b"], ["c", "d"], ["e"]] :=
  ⟨batches_length ids B, fun b hb => batches_size_le ids B b hb,
    batches_flatten B hB ids, by decide⟩

/-- Witness for C1 at `ids = [a, b, c, d, e]`, `B = 2`. -/
theorem c1_partition_completeness_witness :
    (0 : Nat) < 2 ∧
    ((batches (["a", "b", "c", "d", "e"] : List String) 2).length =
        ((["a", "b", "c", "d", "e"] : List String).length + 2 - 1) / 2 ∧
      (∀ b ∈ batches (["a", "b", "c", "d", "e"] : List String) 2, b.length ≤ 2) ∧
      (batches (["a", "b", "c", "d", "e"] : List String) 2).flatten =
        ["a", "b", "c", "d", "e"] ∧
      batches ["a", "b", "c", "d", "e"] 2 = [["a", "b"], ["c", "d"], ["e"]]) :=
  ⟨by decide, c1_partition_completeness ["a", "b", "c", "d", "e"] 2 (by decide)⟩

/-- C2: after a full run in which the dequeued batches are processed in any
order (any permutation of the enqueued batches, covering every worker
count), and the backend returns exactly one result record per submitted
identifier, the identifiers of the sink rows are a permutation of the input
identifiers — so their set equals the input set, with no omissions and no
duplicates beyond the input. -/
theorem c2_coverage (ids : List String) (B : Nat) (hB : 0 < B)
    (backend : List String → SupPayload)
    (hb : ∀ b : List String, ((backend b).supporters).map SupRecord.supporterId = b)
    (order : List (List String)) (horder : order.Perm (batches ids B)) :
    ((runSink backend order).map Prod.fst).Perm ids ∧
    (∀ s, s ∈ (runSink backend order).map Prod.fst ↔ s ∈ ids) := by
  have hperm := runSink_fst_perm ids B hB backend hb order horder
  exact ⟨hperm, fun s => hperm.mem_iff⟩

/-- A mock backend: for each submitted id, one result record with status
FOUND. -/
def echoFound (b : List String) : SupPayload := ⟨b.map fun s => ⟨s, "FOUND"⟩⟩

theorem echoFound_ids (b : List String) :
    ((echoFound b).supporters).map SupRecord.supporterId = b := by
  unfold echoFound
  rw [List.map_map,
    show (SupRecord.supporterId ∘ fun s => (⟨s, "FOUND"⟩ : SupRecord)) = id from rfl,
    List.map_id]

/-- Witness for C2: ids `[a, b, c, d, e]`, `B = 2`, batches processed in
reversed order, backend echoing each submitted id with status FOUND. -/
theorem c2_coverage_witness :
    (0 : Nat) < 2 ∧
    (∀ b : List String,
      ((echoFound b).supporters).map SupRecord.supporterId = b) ∧
    ([["e"], ["c", "d"], ["a", "b"]] : List (List String)).Perm
      (batches ["a", "b", "c", "d", "e"] 2) ∧
    (((runSink echoFound [["e"], ["c", "d"], ["a", "b"]]).map Prod.fst).Perm
        ["a", "b", "c", "d", "e"] ∧
      (∀ s, s ∈ (runSink echoFound [["e"], ["c", "d"], ["a", "b"]]).map Prod.fst ↔
        s ∈ (["a", "b", "c", "d", "e"] : List String))) := by
  refine ⟨by decide, echoFound_ids, by decide, ?_⟩
  exact c2_coverage ["a", "b", "c", "d", "e"] 2 (by decide) echoFound
    echoFound_ids _ (by decide)

/-- C5 (code bug): the claim says the final `q.join()` in `main` returns
once the workers have processed every enqueued batch.  In the code,
`process` only ever calls `q.get()` and never `q.task_done()`, so after any
run the unfinished-task counter of the queue equals the number of enqueued
batches; for every non-empty identifier list (and positive batch size) that
number is positive and `q.join()` never returns, whatever batches the
workers dequeued. -/
theorem c5_join_never_returns (ids : List String) (B : Nat) (hB : 0 < B)
    (hids : ids ≠ []) (dequeued : List (List String)) :
    joinReturns (runQueueOps ids B dequeued) = false := by
  unfold joinReturns runQueueOps unfinishedTasks mainQueueOps processQueueOps
  rw [List.foldl_append, foldl_qopStep_puts, foldl_qopStep_gets,
    batches_cons B hB ids hids]
  simp

/-- Witness for C5: one 36-character id, batch size 1, the single batch
dequeued — the join barrier still reports unfinished work. -/
theorem c5_join_never_returns_witness :
    (0 : Nat) < 1 ∧
    (["aaaaaaaaaaaaaaaaaaaaaaaaaaaaaaaaaaaa"] : List String) ≠ [] ∧
    joinReturns (runQueueOps ["aaaaaaaaaaaaaaaaaaaaaaaaaaaaaaaaaaaa"] 1
      [["aaaaaaaaaaaaaaaaaaaaaaaaaaaaaaaaaaaa"]]) = false :=
  ⟨by decide, by decide,
    c5_join_never_returns _ 1 (by decide) (by decide) _⟩

/-- C7: within one batch, the rows `process` appends to the sink are in
exactly the order of the per-identifier records in the response payload:
there is one row per record and the i-th row is built from the i-th
record. -/
theorem c7_row_order (payload : SupPayload) (i : Nat)
    (hi : i < (batchRows payload).length) (hi2 : i < payload.supporters.length) :
    (batchRows payload).length = payload.supporters.length ∧
    (batchRows payload).get ⟨i, hi⟩ =
      ((payload.supporters.get ⟨i, hi2⟩).supporterId,
        (payload.supporters.get ⟨i, hi2⟩).result) := by
  constructor
  · unfold batchRows
    simp
  · simp [batchRows]

/-- A concrete two-record response payload. -/
def samplePayload : SupPayload := ⟨[⟨"s1", "FOUND"⟩, ⟨"s2", "NOT_FOUND"⟩]⟩

/-- Witness for C7 at the two-record payload and row index 1. -/
theorem c7_row_order_witness :
    1 < (batchRows samplePayload).length ∧
    1 < samplePayload.supporters.length ∧
    ((batchRows samplePayload).length = samplePayload.supporters.length ∧
      (batchRows samplePayload).get ⟨1, by decide⟩ =
        ((samplePayload.supporters.get ⟨1, by decide⟩).supporterId,
          (samplePayload.supporters.get ⟨1, by decide⟩).result)) :=
  ⟨by decide, by decide, c7_row_order samplePayload 1 (by decide) (by decide)⟩

/-- C10: `main` keeps exactly those CSV rows whose first field is 36
characters long; any identifier of a different length is dropped before
batching, appears in no batch, and (with the backend answering one record
per submitted identifier, as in C2) produces no row in the output sink. -/
theorem c10_id_length_filter (rows : List CsvRow) :
    (∀ s, s ∈ readIds rows ↔ s.length = 36 ∧ ∃ row ∈ rows, row.field0 = s) ∧
    (∀ B, 0 < B → ∀ s, s ∈ (batches (readIds rows) B).flatten → s.length = 36) ∧
    (∀ B, 0 < B → ∀ backend : List String → SupPayload,
      (∀ b : List String, ((backend b).supporters).map SupRecord.supporterId = b) →
      ∀ order : List (List String), order.Perm (batches (readIds rows) B) →
      ∀ s, s ∈ (runSink backend order).map Prod.fst → s.length = 36) := by
  have hmem : ∀ s, s ∈ readIds rows ↔ s.length = 36 ∧ ∃ row ∈ rows, row.field0 = s := by
    intro s
    unfold readIds
    simp only [List.mem_map, List.mem_filter, beq_iff_eq]
    constructor
    · rintro ⟨row, ⟨hrow, hlen⟩, rfl⟩
      exact ⟨hlen, row, hrow, rfl⟩
    · rintro ⟨hlen, row, hrow, rfl⟩
      exact ⟨row, ⟨hrow, hlen⟩, rfl⟩
  refine ⟨hmem, ?_, ?_⟩
  · intro B hB s hs
    rw [batches_flatten B hB (readIds rows)] at hs
    exact ((hmem s).mp hs).1
  · intro B hB backend hb order horder s hs
    have hperm := runSink_fst_perm (readIds rows) B hB backend hb order horder
    exact ((hmem s).mp (hperm.mem_iff.mp hs)).1

/-- C3 counterexample: a 429 whose body is the batch-size marker is a
rate-limit signal as the claim defines them (any HTTP 429), yet `invoke`
raises on it at once instead of napping and retrying; with K = 1 such
signal before a clean 200 the outcome is an error after one call and no
sleep, not the claimed two calls, one 30-second nap and the final
payload. -/
theorem c3_counterexample :
    invoke "POST" "https://api.salsalabs.org/x"
      ([⟨429, batchSizeMarker, 0⟩, ⟨200, "", 7⟩] : List (Resp Nat)) =
      .err 1 0 ("Invoker: HTTP status 429, " ++ batchSizeMarker) ∧
    invoke "POST" "https://api.salsalabs.org/x"
      ([⟨429, batchSizeMarker, 0⟩, ⟨200, "", 7⟩] : List (Resp Nat)) ≠
      .ok 2 30 7 := by
  constructor
  · decide
  · decide

/-- C3 (amended): when the backend answers with K soft rate-limit signals
— a 429 whose body does not contain the batch-size marker, or a 200 whose
body contains the per-minute call-rate marker — followed by a clean 200,
`invoke` issues K + 1 calls, sleeps 30 seconds K times, and returns the
payload of the final response; both signal kinds are treated identically
and absorbed, with no retry cap.  (A 429 carrying the batch-size marker
instead raises, per the counterexample.) -/
theorem c3_rate_limit_backoff {P : Type} (url : String) (pre : List (Resp P))
    (hpre : ∀ r ∈ pre, softRateLimit r = true) (lastR : Resp P)
    (h200 : lastR.status = 200)
    (hclean : strContains lastR.text rateLimitMarker = false)
    (rest : List (Resp P)) :
    invoke "POST" url (pre ++ lastR :: rest) =
      .ok (pre.length + 1) (30 * pre.length) lastR.payload := by
  unfold invoke
  rw [if_pos (Or.inl rfl)]
  have h := invokeGo_soft url lastR h200 hclean rest pre hpre 0 0
  simpa using h

/-- Witness for C3 at K = 1: one bare 429, then a clean 200 carrying
payload 7. -/
theorem c3_rate_limit_backoff_witness :
    (∀ r ∈ ([⟨429, "slow down", 0⟩] : List (Resp Nat)), softRateLimit r = true) ∧
    (Resp.status (P := Nat) ⟨200, "", 7⟩ = 200) ∧
    strContains (Resp.text (P := Nat) ⟨200, "", 7⟩) rateLimitMarker = false ∧
    invoke "POST" "https://api.salsalabs.org/x"
      (([⟨429, "slow down", 0⟩] : List (Resp Nat)) ++ ⟨200, "", 7⟩ :: []) =
      .ok ((1 : Nat) + 1) (30 * 1) 7 := by
  refine ⟨by decide, rfl, by decide, ?_⟩
  exact c3_rate_limit_backoff "https://api.salsalabs.org/x"
    [⟨429, "slow down", 0⟩] (by decide) ⟨200, "", 7⟩ rfl (by decide) []

/-- C4 counterexample: a 500 response with body `oops` raises the message
`HTTP Status 500, <url>`; the response body does not occur in it, so the
error does not surface the body. -/
theorem c4_counterexample :
    invoke "POST" "https://api.salsalabs.org/x"
      ([⟨500, "oops", 0⟩] : List (Resp Nat)) =
      .err 1 0 "HTTP Status 500, https://api.salsalabs.org/x" ∧
    strContains "HTTP Status 500, https://api.salsalabs.org/x" "oops" = false := by
  constructor
  · decide
  · decide

/-- C4 (amended): on a first response whose status is neither 200 nor 429,
`invoke` fails at once — one call, zero naps, zero retries — and the raised
message surfaces the status code and the endpoint URL (but not the response
body, per the counterexample). -/
theorem c4_hard_failure {P : Type} (url : String) (r : Resp P)
    (rest : List (Resp P)) (h200 : r.status ≠ 200) (h429 : r.status ≠ 429) :
    invoke "POST" url (r :: rest) =
      .err 1 0 ("HTTP Status " ++ toString r.status ++ ", " ++ url) ∧
    strContains ("HTTP Status " ++ toString r.status ++ ", " ++ url)
      (toString r.status) = true ∧
    strContains ("HTTP Status " ++ toString r.status ++ ", " ++ url) url = true := by
  refine ⟨?_, ?_, ?_⟩
  · unfold invoke
    rw [if_pos (Or.inl rfl)]
    show invokeGo url (r :: rest) 0 0 = _
    unfold invokeGo
    rw [if_pos h200, if_neg h429]
  · rw [String.append_assoc ("HTTP Status " ++ toString r.status) ", " url]
    exact strContains_middle "HTTP Status " (toString r.status) (", " ++ url)
  · exact strContains_right ("HTTP Status " ++ toString r.status ++ ", ") url

/-- Witness for C4 at a 500 response with body `oops`. -/
theorem c4_hard_failure_witness :
    ((500 : Nat) ≠ 200) ∧ ((500 : Nat) ≠ 429) ∧
    (invoke "POST" "https://api.salsalabs.org/x"
        ([⟨500, "oops", 0⟩] : List (Resp Nat)) =
        .err 1 0 ("HTTP Status " ++ toString (500 : Nat) ++ ", " ++
          "https://api.salsalabs.org/x") ∧
      strContains ("HTTP Status " ++ toString (500 : Nat) ++ ", " ++
        "https://api.salsalabs.org/x") (toString (500 : Nat)) = true ∧
      strContains ("HTTP Status " ++ toString (500 : Nat) ++ ", " ++
        "https://api.salsalabs.org/x") "https://api.salsalabs.org/x" = true) :=
  ⟨by decide, by decide,
    c4_hard_failure "https://api.salsalabs.org/x" ⟨500, "oops", 0⟩ []
      (by decide) (by decide)⟩

/-- C6 counterexample: with `endpoint`, `method` and `token` present but
`host` absent, construction does not fail — the host silently defaults to
`api.salsalabs.org` — refuting that each of the four missing-field cases
raises. -/
theorem c6_counterexample :
    endpointInit (some "/api/integration/ext/v1/metrics") none (some "GET")
        (some "tok") =
      .ok ⟨"/api/integration/ext/v1/metrics", "api.salsalabs.org", "GET", "tok",
        "https://api.salsalabs.org/api/integration/ext/v1/metrics"⟩ ∧
    (endpointInit (some "/api/integration/ext/v1/metrics") none (some "GET")
      (some "tok")).isOk = true := by
  constructor
  · rfl
  · rfl

/-- C6 (amended): construction succeeds exactly when `endpoint`, `method`
and `token` are all present; each of those three missing raises at
construction time, while a missing `host` does not raise but defaults to
`api.salsalabs.org`. -/
theorem c6_required_fields (endpoint host method token : Option String) :
    ((endpointInit endpoint host method token).isOk =
      (endpoint.isSome && method.isSome && token.isSome)) ∧
    (∀ e m t : String, ∃ rec : EndpointRec,
      endpointInit (some e) none (some m) (some t) = .ok rec ∧
      rec.host = "api.salsalabs.org") := by
  constructor
  · cases endpoint <;> cases method <;> cases token <;> rfl
  · intro e m t
    exact ⟨⟨e, "api.salsalabs.org", m, t, "https://" ++ "api.salsalabs.org" ++ e⟩,
      rfl, rfl⟩

/-- C9: `get_delete_payload` never returns normally.  As Python 3 runs it,
the undefined name `false` raises a `NameError` before any request, for
every backend behavior; and even under a lenient semantics that defines the
missing names, a successful HTTP 200 delete reaches the `exit(1)` in the
success branch, and no response script makes the function return a
payload. -/
theorem c9_delete_never_returns :
    (∀ (resps : List (Resp Nat)) (p : Nat),
      (getDeletePayload resps : PyOutcome Nat) ≠ .ret p) ∧
    (∀ resps : List (Resp Nat),
      (getDeletePayload resps : PyOutcome Nat) = .nameError "false") ∧
    (∀ (resps : List (Resp Nat)) (p : Nat),
      (getDeletePayloadLenient resps : PyOutcome Nat) ≠ .ret p) ∧
    (∀ (r : Resp Nat) (rest : List (Resp Nat)), r.status = 200 →
      (getDeletePayloadLenient (r :: rest) : PyOutcome Nat) = .exited 1) := by
  refine ⟨fun resps p h => by simp [getDeletePayload] at h, fun resps => rfl, ?_, ?_⟩
  · intro resps
    induction resps with
    | nil =>
      intro p h
      simp [getDeletePayloadLenient] at h
    | cons r rest ih =>
      intro p h
      unfold getDeletePayloadLenient at h
      by_cases h200 : r.status = 200
      · rw [if_pos h200, if_neg (by omega : ¬ r.status = 429)] at h
        simp at h
      · rw [if_neg h200] at h
        exact ih p h
  · intro r rest h200
    unfold getDeletePayloadLenient
    rw [if_pos h200, if_neg (by omega : ¬ r.status = 429)]

/-- Witness for C10: a 36-character row is kept and a 2-character row is
dropped; the dropped identifier reaches no batch and no sink row. -/
theorem c10_id_length_filter_witness :
    (∀ s, s ∈ readIds [⟨"aaaaaaaaaaaaaaaaaaaaaaaaaaaaaaaaaaaa", []⟩, ⟨"xy", ["note"]⟩] ↔
      s.length = 36 ∧
        ∃ row ∈ ([⟨"aaaaaaaaaaaaaaaaaaaaaaaaaaaaaaaaaaaa", []⟩,
          ⟨"xy", ["note"]⟩] : List CsvRow), row.field0 = s) ∧
    (∀ B, 0 < B →
      ∀ s, s ∈ (batches (readIds [⟨"aaaaaaaaaaaaaaaaaaaaaaaaaaaaaaaaaaaa", []⟩,
        ⟨"xy", ["note"]⟩]) B).flatten → s.length = 36) ∧
    (∀ B, 0 < B → ∀ backend : List String → SupPayload,
      (∀ b : List String, ((backend b).supporters).map SupRecord.supporterId = b) →
      ∀ order : List (List String),
        order.Perm (batches (readIds [⟨"aaaaaaaaaaaaaaaaaaaaaaaaaaaaaaaaaaaa", []⟩,
          ⟨"xy", ["note"]⟩]) B) →
      ∀ s, s ∈ (runSink backend order).map Prod.fst → s.length = 36) :=
  c10_id_length_filter [⟨"aaaaaaaaaaaaaaaaaaaaaaaaaaaaaaaaaaaa", []⟩, ⟨"xy", ["note"]⟩]


/-- C8 counterexample: with `args.count = 2` and a first response whose
returned count is 3 (not less than the requested 2) the loop nevertheless
stops after the single request `(offset 0, count 2)` — refuting that
pagination repeats until the returned count is less than the requested
count. -/
theorem c8_counterexample :
    paginate 2 [⟨some 3, some ["m"]⟩, ⟨some 2, some ["m"]⟩] =
      .normal [(0, 2)] ∧ ¬ (3 < 2) := by
  constructor
  · decide
  · decide

/-- C8 (amended): while every response returns count equal to `args.count`
(with supporters present), each next request's offset is the previous
offset plus the returned count, so the requested offsets are
0, C, 2C, ...; the loop stops, normally, at the first response whose
returned count differs from the requested count (in particular when it is
less); and the requested offsets are strictly increasing whenever the
counts are positive. -/
theorem c8_pagination_offsets (C : Nat) (pre : List PageResp)
    (hpre : ∀ r ∈ pre, r.count = some C ∧ r.supporters.isSome = true)
    (lastR : PageResp) (cl : Nat) (hfc : lastR.count = some cl)
    (hfs : lastR.supporters.isSome = true) (hne : cl ≠ C)
    (rest : List PageResp) :
    paginate C (pre ++ lastR :: rest) =
      .normal ((List.range (pre.length + 1)).map fun i => (i * C, C)) ∧
    ((List.range (pre.length + 1)).map fun i => (i * C, C)).Chain'
      (fun a b => b.1 = a.1 + C) ∧
    (0 < C → ((List.range (pre.length + 1)).map fun i => (i * C, C)).Chain'
      fun a b => a.1 < b.1) := by
  refine ⟨?_, ?_, ?_⟩
  · unfold paginate
    have h := paginateGo_steady C lastR cl hfc hfs hne rest pre hpre 0 []
    simpa using h
  · rw [List.chain'_map, List.chain'_range_succ]
    intro m _
    simp [Nat.succ_mul]
  · intro hC
    rw [List.chain'_map, List.chain'_range_succ]
    intro m _
    exact mul_lt_mul_of_pos_right (by omega) hC

/-- Witness for C8: requested count 2, one full page (count 2) then a
short page (count 1). -/
theorem c8_pagination_offsets_witness :
    (∀ r ∈ ([⟨some 2, some ["m1"]⟩] : List PageResp),
      r.count = some 2 ∧ r.supporters.isSome = true) ∧
    PageResp.count ⟨some 1, some ["m2"]⟩ = some 1 ∧
    (PageResp.supporters ⟨some 1, some ["m2"]⟩).isSome = true ∧
    (1 : Nat) ≠ 2 ∧
    (paginate 2 (([⟨some 2, some ["m1"]⟩] : List PageResp) ++
        ⟨some 1, some ["m2"]⟩ :: []) =
      .normal ((List.range (1 + 1)).map fun i => (i * 2, 2)) ∧
    ((List.range (1 + 1)).map fun i => (i * 2, 2)).Chain'
      (fun a b => b.1 = a.1 + 2) ∧
    (0 < 2 → ((List.range (1 + 1)).map fun i => (i * 2, 2)).Chain'
      fun a b => a.1 < b.1)) := by
  refine ⟨by decide, rfl, rfl, by decide, ?_⟩
  exact c8_pagination_offsets 2 [⟨some 2, some ["m1"]⟩] (by decide)
    ⟨some 1, some ["m2"]⟩ 1 rfl rfl (by decide) []
